import Mathlib

/-!
Verification development for the fuego route-registration / OpenAPI-synthesis
engine.  The definitions below are a shallow embedding of the Go source:
`openapi3.ToSchema` (schema synthesizer), the `Server` construction defaults
and fluent tag mutators of `server.go` / `options.go`, and the
`WithOpenAPIConfig` option.  Functions whose source is not part of this
repository snapshot (the route registry, `Use`, `Hide`) are modelled from the
specification and marked as such in their doc comments.
-/

set_option maxHeartbeats 1000000

namespace OpSpec

/-! ## String containment, mirroring Go `strings.Contains` -/

/-- Mirrors the question whether the character list `sub` occurs at the very
start of `s` (helper for substring containment). -/
def strLeads : List Char → List Char → Bool
  | [], _ => true
  | _ :: _, [] => false
  | a :: as, b :: bs => a == b && strLeads as bs

/-- Mirrors the question whether `sub` occurs contiguously anywhere in `s`. -/
def strOccurs (sub : List Char) : List Char → Bool
  | [] => strLeads sub []
  | b :: bs => strLeads sub (b :: bs) || strOccurs sub bs

/-- Embeds Go `strings.Contains s sub`. -/
def goContains (s sub : String) : Bool := strOccurs sub.data s.data

/-! ## The Go data-shape model

A `GoType` is the reflection-relevant information about a Go type: pointers,
slices, `time.Time` (which has reflect kind `struct` but is special-cased by
`ToSchema`), other structs with their tagged fields in declaration order, and
primitive types carrying their type name (`Type.Name()`) and kind string
(`Kind().String()`).  Values are modelled as their types: the synthesizer
only inspects types of zero-value instances (it is invoked on `reflect.New`
instances and zero values). -/

/-- Tag metadata of one struct field: Go field name and the raw `json`,
`validate`, `format` and `example` struct tags (empty string when absent). -/
structure GoFieldData where
  fname : String
  jsonTag : String
  validateTag : String
  formatTag : String
  exampleTag : String
deriving DecidableEq, Repr

/-- Reflection-relevant structure of a Go type.  A struct's fields are pairs
of tag metadata and field type, in declaration order. -/
inductive GoType where
  | ptr (elem : GoType)
  | slice (elem : GoType)
  | timeT
  | structT (name : String) (fields : List (GoFieldData × GoType))
  | prim (typeName : String) (kindName : String)
deriving Repr

/-- Embeds `reflect.Value.Kind().String()` for the modelled types. -/
def goKind : GoType → String
  | .ptr _ => "ptr"
  | .slice _ => "slice"
  | .timeT => "struct"
  | .structT _ _ => "struct"
  | .prim _ k => k

/-- Embeds `reflect.Type.Name()`: primitives and structs carry their name,
`time.Time` is named `Time`, unnamed pointer and slice types have name `""`. -/
def typeName : GoType → String
  | .ptr _ => ""
  | .slice _ => ""
  | .timeT => "Time"
  | .structT n _ => n
  | .prim n _ => n

/-- Embeds the field-name resolution of `ToSchema`: the `json` tag when
present, the Go field name otherwise. -/
def fieldName (fd : GoFieldData) : String :=
  if fd.jsonTag == "" then fd.fname else fd.jsonTag

/-! ## The OpenAPI Schema model

Mirrors `openapi3.Schema`: type tag, properties (the Go `map[string]Schema`,
embedded as an association list with insert-or-overwrite semantics),
required-field list, format, example, optional items schema. -/

/-- Embeds `openapi3.Schema`. -/
inductive Schema where
  | mk (type : String) (properties : List (String × Schema)) (required : List String)
      (format : String) (exampleStr : String) (items : Option Schema)

/-- Projects the `Type` component of a `Schema`. -/
def Schema.type : Schema → String
  | .mk t _ _ _ _ _ => t

/-- Projects the `Properties` component of a `Schema`. -/
def Schema.properties : Schema → List (String × Schema)
  | .mk _ p _ _ _ _ => p

/-- Projects the `Required` component of a `Schema`. -/
def Schema.required : Schema → List String
  | .mk _ _ r _ _ _ => r

/-- Projects the `Format` component of a `Schema`. -/
def Schema.format : Schema → String
  | .mk _ _ _ f _ _ => f

/-- Projects the `Example` component of a `Schema`. -/
def Schema.exampleStr : Schema → String
  | .mk _ _ _ _ e _ => e

/-- Projects the `Items` component of a `Schema`. -/
def Schema.items : Schema → Option Schema
  | .mk _ _ _ _ _ i => i

/-- Embeds Go map assignment `m[k] = v`: overwrite the binding of `k` when
present, otherwise add a new binding. -/
def mapInsert : List (String × Schema) → String → Schema → List (String × Schema)
  | [], k, v => [(k, v)]
  | (k', v') :: rest, k, v =>
      if k' == k then (k, v) :: rest else (k', v') :: mapInsert rest k v

/-- Embeds the kind-name normalisation of the scalar fallthrough branch of
`ToSchema`: kind names containing `int` become `integer`, `bool` becomes
`boolean`, anything else is kept verbatim. -/
def scalarType (k : String) : String :=
  if goContains k "int" then "integer"
  else if k == "bool" then "boolean"
  else k

/-- Embeds the non-struct field branch of `ToSchema`: the schema built from a
field's type name and its `format` / `example` tags.  When the type name
contains `int`, the type becomes `integer` and a non-empty `format` tag is
overwritten with the type name itself. -/
def primFieldSchema (fd : GoFieldData) (ft : GoType) : Schema :=
  let tn := typeName ft
  if goContains tn "int" then
    Schema.mk "integer" [] [] (if fd.formatTag == "" then fd.formatTag else tn) fd.exampleTag none
  else if tn == "bool" then
    Schema.mk "boolean" [] [] fd.formatTag fd.exampleTag none
  else
    Schema.mk tn [] [] fd.formatTag fd.exampleTag none

/-- Embeds the RFC3339 rendering of the zero `time.Time`, used as the example
of a date-time schema synthesized from a zero-value instance. -/
def zeroTimeRFC3339 : String := "0001-01-01T00:00:00Z"

mutual

/-- Embeds `openapi3.ToSchema` applied to a value after its single top-level
pointer dereference (`reflect.Ptr` values are dereferenced exactly once on
entry).  Branches mirror the source order: slice, `time.Time`, struct, and
the scalar fallthrough that stringifies the reflect kind.  A remaining
pointer (from a pointer-to-pointer input) reaches the fallthrough and gets
type `ptr`. -/
def schemaOf : GoType → Schema
  | .slice (.ptr e) => Schema.mk "array" [] [] "" "" (some (schemaOf e))
  | .slice e => Schema.mk "array" [] [] "" "" (some (schemaOf e))
  | .timeT => Schema.mk "string" [] [] "date-time" zeroTimeRFC3339 none
  | .structT _ fields =>
      let pr := structFields fields [] []
      Schema.mk "object" pr.1 pr.2 "" "" none
  | .ptr _ => Schema.mk "ptr" [] [] "" "" none
  | .prim _ k => Schema.mk (scalarType k) [] [] "" "" none

/-- Embeds the field loop of the struct branch of `ToSchema`, accumulating
the properties map and the required list in declaration order.  Struct-kind
fields (including `time.Time` fields) recurse and are never added to the
required list; other fields get `primFieldSchema` and are added to the
required list when their `validate` tag contains `required`. -/
def structFields : List (GoFieldData × GoType) → List (String × Schema) → List String →
    List (String × Schema) × List String
  | [], props, req => (props, req)
  | (fd, ft) :: rest, props, req =>
      if goKind ft == "struct" then
        structFields rest (mapInsert props (fieldName fd) (schemaOf ft)) req
      else
        structFields rest (mapInsert props (fieldName fd) (primFieldSchema fd ft))
          (if goContains fd.validateTag "required" then req ++ [fieldName fd] else req)

end

/-- Embeds `openapi3.ToSchema` on a (non-nil) instance of the given type:
a top-level pointer is dereferenced exactly once, then `schemaOf` runs. -/
def toSchema : GoType → Schema
  | .ptr e => schemaOf e
  | t => schemaOf t

/-- Embeds the single pointer dereference applied to a slice's element type
(`itemType.Kind() == reflect.Ptr` → `itemType.Elem()`). -/
def sliceElem : GoType → GoType
  | .slice (.ptr e) => e
  | .slice e => e
  | t => t

/-- Decides whether a modelled type has pointer kind. -/
def isPtrType : GoType → Bool
  | .ptr _ => true
  | _ => false

/-! ## Spec-side characterisations used to state the schema claims -/

/-- Names, in declaration order, of the non-struct-kind fields whose
`validate` tag contains `required` (the fields the synthesizer actually
records as required). -/
def requiredNames (fields : List (GoFieldData × GoType)) : List String :=
  (fields.filter
    (fun p => !(goKind p.2 == "struct") && goContains p.1.validateTag "required")).map
    (fun p => fieldName p.1)

/-- Property entry synthesized for one struct field: struct-kind fields
recurse into the synthesizer, other fields get the primitive field schema. -/
def propOf (p : GoFieldData × GoType) : String × Schema :=
  (fieldName p.1, if goKind p.2 == "struct" then schemaOf p.2 else primFieldSchema p.1 p.2)

/-! ## Lemmas about the struct-field loop -/

/-- Required-list characterisation of the field loop: the accumulated
required list grows exactly by the non-struct-kind fields whose `validate`
tag contains `required`, in declaration order. -/
theorem structFields_snd (fields : List (GoFieldData × GoType)) :
    ∀ props req, (structFields fields props req).2 = req ++ requiredNames fields := by
  induction fields with
  | nil => intro props req; simp [structFields, requiredNames]
  | cons p rest ih =>
      intro props req
      obtain ⟨fd, ft⟩ := p
      by_cases h : (goKind ft == "struct") = true
      · have hreq : requiredNames ((fd, ft) :: rest) = requiredNames rest := by
          simp [requiredNames, List.filter_cons, h]
        simp only [structFields, h, if_true, if_pos]
        rw [ih, hreq]
      · have hb : (goKind ft == "struct") = false := by
          simpa using h
        by_cases hc : goContains fd.validateTag "required" = true
        · have hreq : requiredNames ((fd, ft) :: rest) =
              fieldName fd :: requiredNames rest := by
            simp [requiredNames, List.filter_cons, hb, hc]
          simp only [structFields, hb, Bool.false_eq_true, if_false, hc, if_true]
          rw [ih, hreq, List.append_assoc, List.singleton_append]
        · have hb2 : goContains fd.validateTag "required" = false := by
            simpa using hc
          have hreq : requiredNames ((fd, ft) :: rest) = requiredNames rest := by
            simp [requiredNames, List.filter_cons, hb, hb2]
          simp only [structFields, hb, Bool.false_eq_true, if_false, hb2]
          rw [ih, hreq]

/-- Inserting a fresh key into the embedded map appends the binding. -/
theorem mapInsert_not_mem (k : String) (v : Schema) :
    ∀ l : List (String × Schema), k ∉ l.map Prod.fst → mapInsert l k v = l ++ [(k, v)] := by
  intro l
  induction l with
  | nil => intro _; rfl
  | cons p rest ih =>
      intro h
      obtain ⟨k', v'⟩ := p
      have hmem : ¬(k = k' ∨ k ∈ rest.map Prod.fst) := by simpa using h
      have hk : (k' == k) = false := by
        simp only [beq_eq_false_iff_ne, ne_eq]
        exact fun e => hmem (Or.inl e.symm)
      simp [mapInsert, hk, ih (fun hm => hmem (Or.inr hm))]

/-- Properties characterisation of the field loop: when the resolved field
names are distinct and fresh for the accumulator, the loop appends exactly
one property per declared field, in declaration order. -/
theorem structFields_fst (fields : List (GoFieldData × GoType)) :
    ∀ props req, (fields.map (fun p => fieldName p.1)).Nodup →
      (∀ p ∈ fields, fieldName p.1 ∉ props.map Prod.fst) →
      (structFields fields props req).1 = props ++ fields.map propOf := by
  induction fields with
  | nil => intro props req _ _; simp [structFields]
  | cons p rest ih =>
      intro props req hnd hfresh
      obtain ⟨fd, ft⟩ := p
      have hk : fieldName fd ∉ props.map Prod.fst := hfresh (fd, ft) (by simp)
      have hnd0 : (fieldName fd :: rest.map (fun p => fieldName p.1)).Nodup := by
        simpa only [List.map_cons] using hnd
      have hnd' : (rest.map (fun p => fieldName p.1)).Nodup :=
        (List.nodup_cons.mp hnd0).2
      have hhead : fieldName fd ∉ rest.map (fun p => fieldName p.1) :=
        (List.nodup_cons.mp hnd0).1
      have hfresh' : ∀ val, ∀ q ∈ rest,
          fieldName q.1 ∉ (props ++ [(fieldName fd, val)]).map Prod.fst := by
        intro val q hq
        simp only [List.map_append, List.map_cons, List.map_nil, List.mem_append,
          List.mem_singleton]
        rintro (hin | heq)
        · exact hfresh q (List.mem_cons_of_mem _ hq) hin
        · exact hhead (by
            rw [← heq]
            exact List.mem_map.mpr ⟨q, hq, rfl⟩)
      by_cases h : (goKind ft == "struct") = true
      · simp only [structFields, h, if_true, if_pos]
        rw [mapInsert_not_mem _ _ _ hk, ih _ req hnd' (hfresh' _), List.append_assoc]
        simp [propOf, h]
      · have hb : (goKind ft == "struct") = false := by simpa using h
        simp only [structFields, hb, Bool.false_eq_true, if_false]
        rw [mapInsert_not_mem _ _ _ hk, ih _ _ hnd' (hfresh' _), List.append_assoc]
        simp [propOf, hb]

/-! ## Demo shapes used by witnesses -/

/-- Fields of a small nested struct: one required string field. -/
def demoInnerFields : List (GoFieldData × GoType) :=
  [(⟨"Name", "name", "required", "", ""⟩, GoType.prim "string" "string")]

/-- A small nested struct shape. -/
def demoInner : GoType := GoType.structT "Inner" demoInnerFields

/-- Fields of the outer demo struct: one required int field and one
nested-struct field. -/
def demoOuterFields : List (GoFieldData × GoType) :=
  [(⟨"ID", "", "required", "", ""⟩, GoType.prim "int" "int"),
   (⟨"In", "", "", "", ""⟩, demoInner)]

/-- A slice shape whose element is a pointer to a pointer to int. -/
def doublePtrSliceDemo : GoType := GoType.slice (.ptr (.ptr (GoType.prim "int" "int")))

/-! ## Claim C1 -/

/-- C1 counterexample: a struct-typed field whose `validate` tag contains
`required` is not recorded in the `required` list — `ToSchema` only checks
the `validate` tag in the non-struct field branch, so the claim that the
`required` list contains exactly the required-marked fields fails on a
struct whose required-marked field is itself a struct. -/
theorem requiredList_skips_struct_fields_cex :
    goContains "required" "required" = true ∧
    (toSchema (GoType.structT "Outer"
        [(⟨"In", "", "required", "", ""⟩,
          GoType.structT "Inner"
            [(⟨"A", "", "", "", ""⟩, GoType.prim "string" "string")])])).required = [] ∧
    "In" ∉ (toSchema (GoType.structT "Outer"
        [(⟨"In", "", "required", "", ""⟩,
          GoType.structT "Inner"
            [(⟨"A", "", "", "", ""⟩, GoType.prim "string" "string")])])).required := by
  decide

/-- C1 (amended): for every struct shape, the synthesized `required` list
contains exactly the names of the non-struct-kind fields whose `validate`
tag contains `required`, in declaration order (struct-kind fields marked
required are omitted); and the same holds recursively for every
nested-struct field's own schema. -/
theorem requiredList_amended (n : String) (fields : List (GoFieldData × GoType)) :
    (toSchema (GoType.structT n fields)).required = requiredNames fields ∧
    (∀ fd ft m gs, (fd, ft) ∈ fields → ft = GoType.structT m gs →
      (toSchema ft).required = requiredNames gs) := by
  constructor
  · show (schemaOf (GoType.structT n fields)).required = _
    simp only [schemaOf, Schema.required]
    rw [structFields_snd]
    simp
  · intro fd ft m gs _ hft
    subst hft
    show (schemaOf (GoType.structT m gs)).required = _
    simp only [schemaOf, Schema.required]
    rw [structFields_snd]
    simp

/-- Witness for C1: the amended statement evaluated on the demo shapes,
including the recursion into the nested struct field. -/
theorem requiredList_amended_witness :
    (toSchema (GoType.structT "Outer" demoOuterFields)).required = requiredNames demoOuterFields ∧
    (toSchema demoInner).required = requiredNames demoInnerFields := by
  have h := requiredList_amended "Outer" demoOuterFields
  exact ⟨h.1, h.2 ⟨"In", "", "", "", ""⟩ demoInner "Inner" demoInnerFields
    (by simp [demoOuterFields]) rfl⟩

/-! ## Claim C2 -/

/-- C2 counterexample: `time.Time` has reflect kind `struct`, yet its
synthesized schema has type `string`, not `object` — the claim that every
struct data shape yields an `object` schema fails on `time.Time`. -/
theorem structSchema_time_not_object_cex :
    goKind GoType.timeT = "struct" ∧
    (toSchema GoType.timeT).type = "string" ∧
    ¬((toSchema GoType.timeT).type = "object") := by
  decide

/-- C2 (amended): for every struct shape other than `time.Time`, whose
resolved property names are distinct, the synthesized schema has type
`object`, its properties are exactly one entry per declared field in
declaration order (in the association-list embedding of the Go map), the
property keys are the resolved field names in declaration order, and every
struct-kind field maps to its own recursively synthesized schema. -/
theorem structSchema_object_props_amended (n : String) (fields : List (GoFieldData × GoType))
    (hnd : (fields.map (fun p => fieldName p.1)).Nodup) :
    (toSchema (GoType.structT n fields)).type = "object" ∧
    (toSchema (GoType.structT n fields)).properties = fields.map propOf ∧
    (toSchema (GoType.structT n fields)).properties.map Prod.fst =
      fields.map (fun p => fieldName p.1) ∧
    (∀ fd ft, (fd, ft) ∈ fields → goKind ft = "struct" →
      (fieldName fd, toSchema ft) ∈ (toSchema (GoType.structT n fields)).properties) := by
  have hprops : (toSchema (GoType.structT n fields)).properties = fields.map propOf := by
    show (schemaOf (GoType.structT n fields)).properties = _
    simp only [schemaOf, Schema.properties]
    rw [structFields_fst fields [] [] hnd (by simp)]
    simp
  refine ⟨rfl, hprops, ?_, ?_⟩
  · rw [hprops, List.map_map]
    refine List.map_congr_left ?_
    intro p _
    simp [propOf]
  · intro fd ft hmem hkind
    have hts : toSchema ft = schemaOf ft := by
      cases ft with
      | ptr e => simp [goKind] at hkind
      | slice e => rfl
      | timeT => rfl
      | structT a b => rfl
      | prim a b => rfl
    rw [hprops]
    refine List.mem_map.mpr ⟨(fd, ft), hmem, ?_⟩
    simp [propOf, hkind, hts]

/-- Witness for C2: the amended statement evaluated on the demo struct with
two distinctly-named fields, one of them a nested struct. -/
theorem structSchema_object_props_amended_witness :
    (toSchema (GoType.structT "Outer" demoOuterFields)).type = "object" ∧
    (toSchema (GoType.structT "Outer" demoOuterFields)).properties.map Prod.fst = ["ID", "In"] ∧
    (fieldName ⟨"In", "", "", "", ""⟩, toSchema demoInner) ∈
      (toSchema (GoType.structT "Outer" demoOuterFields)).properties := by
  have h := structSchema_object_props_amended "Outer" demoOuterFields (by decide)
  refine ⟨h.1, ?_, ?_⟩
  · rw [h.2.2.1]; decide
  · exact h.2.2.2 ⟨"In", "", "", "", ""⟩ demoInner (by simp [demoOuterFields]) (by decide)

/-! ## Claim C3 -/

/-- C3 counterexample: a `float64` scalar synthesizes to schema type
`float64`, which is not in the claimed set {integer, boolean, string,
number} — floating-point kinds are not mapped to `number`. -/
theorem scalarSchema_float_not_number_cex :
    (toSchema (GoType.prim "float64" "float64")).type = "float64" ∧
    "float64" ∉ (["integer", "boolean", "string", "number"] : List String) := by
  decide

/-- C3 (amended): scalar shapes map integer kinds (any kind name containing
`int`) to `integer`, `bool` to `boolean`, and keep every other kind name
verbatim — so `string` stays `string` but floating-point kinds stay
`float32`/`float64`; `number` is never produced. -/
theorem scalarSchema_kinds_amended :
    (∀ nm k, (toSchema (GoType.prim nm k)).type = scalarType k) ∧
    (toSchema (GoType.prim "int" "int")).type = "integer" ∧
    (toSchema (GoType.prim "int8" "int8")).type = "integer" ∧
    (toSchema (GoType.prim "int16" "int16")).type = "integer" ∧
    (toSchema (GoType.prim "int32" "int32")).type = "integer" ∧
    (toSchema (GoType.prim "int64" "int64")).type = "integer" ∧
    (toSchema (GoType.prim "uint" "uint")).type = "integer" ∧
    (toSchema (GoType.prim "uint8" "uint8")).type = "integer" ∧
    (toSchema (GoType.prim "uint16" "uint16")).type = "integer" ∧
    (toSchema (GoType.prim "uint32" "uint32")).type = "integer" ∧
    (toSchema (GoType.prim "uint64" "uint64")).type = "integer" ∧
    (toSchema (GoType.prim "bool" "bool")).type = "boolean" ∧
    (toSchema (GoType.prim "string" "string")).type = "string" ∧
    (toSchema (GoType.prim "float32" "float32")).type = "float32" ∧
    (toSchema (GoType.prim "float64" "float64")).type = "float64" ∧
    ¬((toSchema (GoType.prim "float64" "float64")).type = "number") := by
  refine ⟨fun nm k => rfl, ?_⟩
  decide

/-! ## Claim C4 -/

/-- C4 counterexample: for element type `**int` the synthesizer dereferences
the element type only once and then stops at the remaining pointer, so
`items` has type `ptr`, while the synthesized schema of the once-dereferenced
element shape `*int` is the `integer` schema — the two differ. -/
theorem sliceSchema_double_ptr_cex :
    (toSchema doublePtrSliceDemo).items.map Schema.type = some "ptr" ∧
    (toSchema (sliceElem doublePtrSliceDemo)).type = "integer" ∧
    (toSchema doublePtrSliceDemo).items ≠ some (toSchema (sliceElem doublePtrSliceDemo)) := by
  refine ⟨rfl, rfl, ?_⟩
  intro h
  have h1 : some (toSchema (sliceElem doublePtrSliceDemo)) =
      some (Schema.mk "ptr" [] [] "" "" none) := h.symm.trans rfl
  have h2 := congrArg Schema.type (Option.some.inj h1)
  simp only [Schema.type] at h2
  exact absurd h2 (by decide)

/-- C4 (amended): every slice shape synthesizes to type `array` with a
non-nil `items` schema, equal to the schema synthesized from the
once-dereferenced element shape without any further top-level dereference
(a pointer-of-pointer element therefore yields an items schema of type
`ptr`); whenever the dereferenced element is not itself a pointer, `items`
equals the synthesized schema of the dereferenced element shape. -/
theorem sliceSchema_array_items_amended (e : GoType) :
    (toSchema (GoType.slice e)).type = "array" ∧
    (toSchema (GoType.slice e)).items = some (schemaOf (sliceElem (GoType.slice e))) ∧
    (toSchema (GoType.slice e)).items ≠ none ∧
    (isPtrType (sliceElem (GoType.slice e)) = false →
      (toSchema (GoType.slice e)).items = some (toSchema (sliceElem (GoType.slice e)))) := by
  cases e with
  | ptr x =>
      refine ⟨rfl, rfl, Option.some_ne_none _, ?_⟩
      intro hx
      cases x with
      | ptr y => simp [sliceElem, isPtrType] at hx
      | slice y => rfl
      | timeT => rfl
      | structT a b => rfl
      | prim a b => rfl
  | slice x => exact ⟨rfl, rfl, Option.some_ne_none _, fun _ => rfl⟩
  | timeT => exact ⟨rfl, rfl, Option.some_ne_none _, fun _ => rfl⟩
  | structT a b => exact ⟨rfl, rfl, Option.some_ne_none _, fun _ => rfl⟩
  | prim a b => exact ⟨rfl, rfl, Option.some_ne_none _, fun _ => rfl⟩

/-- Witness for C4: the amended statement evaluated on a slice of strings. -/
theorem sliceSchema_array_items_amended_witness :
    isPtrType (sliceElem (GoType.slice (GoType.prim "string" "string"))) = false ∧
    (toSchema (GoType.slice (GoType.prim "string" "string"))).type = "array" ∧
    (toSchema (GoType.slice (GoType.prim "string" "string"))).items =
      some (toSchema (GoType.prim "string" "string")) := by
  have h := sliceSchema_array_items_amended (GoType.prim "string" "string")
  exact ⟨by decide, h.1, h.2.2.2 (by decide)⟩

/-! ## Claim C10: fluent tag mutators (`server.go` `Server.Tags` /
`Server.AddTags` / `Server.RemoveTags`, and the identical `Route` methods) -/

/-- Embeds the inner loop of `RemoveTags`: scan the tag list, delete the
first element equal to `tag` (`slices.Delete(s.tags, i, i+1)` followed by
`break`), leave the rest untouched. -/
def removeFirstTag (tag : String) : List String → List String
  | [] => []
  | t :: rest => if t == tag then rest else t :: removeFirstTag tag rest

/-- Embeds the tag state of a `Server` (i.e. a group). -/
structure ServerTags where
  tags : List String
deriving DecidableEq

/-- Embeds `Server.Tags`: replace the whole tag list. -/
def ServerTags.Tags (_s : ServerTags) (ts : List String) : ServerTags := ⟨ts⟩

/-- Embeds `Server.AddTags`: append the arguments to the tag list. -/
def ServerTags.AddTags (s : ServerTags) (ts : List String) : ServerTags := ⟨s.tags ++ ts⟩

/-- Embeds `Server.RemoveTags`: for each argument tag in order, delete its
first occurrence from the current tag list. -/
def ServerTags.RemoveTags (s : ServerTags) (ts : List String) : ServerTags :=
  ⟨ts.foldl (fun acc tag => removeFirstTag tag acc) s.tags⟩

/-- Embeds the tag state of a `Route`'s operation. -/
structure RouteTags where
  tags : List String
deriving DecidableEq

/-- Embeds `Route.Tags`: replace the operation's tag list. -/
def RouteTags.Tags (_r : RouteTags) (ts : List String) : RouteTags := ⟨ts⟩

/-- Embeds `Route.AddTags`: append the arguments to the operation's tags. -/
def RouteTags.AddTags (r : RouteTags) (ts : List String) : RouteTags := ⟨r.tags ++ ts⟩

/-- Embeds `Route.RemoveTags`: same first-occurrence deletion loop as the
server method. -/
def RouteTags.RemoveTags (r : RouteTags) (ts : List String) : RouteTags :=
  ⟨ts.foldl (fun acc tag => removeFirstTag tag acc) r.tags⟩

/-- Deleting a tag that does not occur leaves the list unchanged. -/
theorem removeFirstTag_not_mem (t : String) :
    ∀ l : List String, t ∉ l → removeFirstTag t l = l := by
  intro l
  induction l with
  | nil => intro _; rfl
  | cons x rest ih =>
      intro h
      have hx : (x == t) = false := by
        simp only [beq_eq_false_iff_ne, ne_eq]
        intro e
        exact h (e ▸ List.mem_cons_self x rest)
      simp [removeFirstTag, hx, ih (fun hm => h (List.mem_cons_of_mem _ hm))]

/-- Deleting a tag removes exactly its first occurrence: the prefix before
it and the suffix after it (later occurrences included) are unchanged. -/
theorem removeFirstTag_first (t : String) :
    ∀ l1 l2 : List String, t ∉ l1 → removeFirstTag t (l1 ++ t :: l2) = l1 ++ l2 := by
  intro l1
  induction l1 with
  | nil => intro l2 _; simp [removeFirstTag]
  | cons x rest ih =>
      intro l2 h
      have hx : (x == t) = false := by
        simp only [beq_eq_false_iff_ne, ne_eq]
        intro e
        exact h (e ▸ List.mem_cons_self x rest)
      simp only [List.cons_append, removeFirstTag, hx, Bool.false_eq_true, if_false,
        List.append_eq]
      rw [ih l2 (fun hm => h (List.mem_cons_of_mem _ hm))]

/-- C10: `Tags` replaces the whole tag list with its arguments; `AddTags`
appends its arguments preserving the existing prefix; `RemoveTags` with a
single argument tag deletes at most one occurrence — the first — leaving
every other element and their relative order unchanged, for both the
`Server` and the `Route` methods. -/
theorem tag_mutators_confirmed (l ts : List String) (t : String) :
    ((ServerTags.mk l).Tags ts).tags = ts ∧
    ((ServerTags.mk l).AddTags ts).tags = l ++ ts ∧
    ((RouteTags.mk l).Tags ts).tags = ts ∧
    ((RouteTags.mk l).AddTags ts).tags = l ++ ts ∧
    (t ∉ l → ((ServerTags.mk l).RemoveTags [t]).tags = l ∧
      ((RouteTags.mk l).RemoveTags [t]).tags = l) ∧
    (∀ l1 l2, l = l1 ++ t :: l2 → t ∉ l1 →
      ((ServerTags.mk l).RemoveTags [t]).tags = l1 ++ l2 ∧
      ((RouteTags.mk l).RemoveTags [t]).tags = l1 ++ l2) := by
  refine ⟨rfl, rfl, rfl, rfl, ?_, ?_⟩
  · intro h
    constructor <;>
      simp [ServerTags.RemoveTags, RouteTags.RemoveTags, removeFirstTag_not_mem t l h]
  · intro l1 l2 hdec h1
    subst hdec
    constructor <;>
      simp [ServerTags.RemoveTags, RouteTags.RemoveTags, removeFirstTag_first t l1 l2 h1]

/-- Witness for C10: a list in which the removed tag occurs twice — only the
first occurrence disappears, and the replace/append mutators behave as
stated. -/
theorem tag_mutators_confirmed_witness :
    ((ServerTags.mk ["a", "b", "a"]).RemoveTags ["a"]).tags = ["b", "a"] ∧
    ((RouteTags.mk ["a", "b", "a"]).RemoveTags ["a"]).tags = ["b", "a"] ∧
    ((ServerTags.mk ["a", "b", "a"]).Tags ["x"]).tags = ["x"] ∧
    ((ServerTags.mk ["a", "b", "a"]).AddTags ["x"]).tags = ["a", "b", "a", "x"] := by
  have h := tag_mutators_confirmed ["a", "b", "a"] ["x"] "a"
  have hfirst := h.2.2.2.2.2 [] ["b", "a"] rfl (by decide)
  exact ⟨hfirst.1, hfirst.2, h.1, h.2.1⟩

/-! ## Claim C9: `NewServer` defaults (`server.go`) -/

/-- Abstract handles for the serializer functions that options can install
(`Send`, `SendXML`, or a user-supplied function). -/
inductive SerializerK where
  | send
  | sendXML
  | custom (id : Nat)
deriving DecidableEq

/-- Abstract handles for the error-serializer functions
(`SendError`, `SendXMLError`, or a user-supplied function). -/
inductive ErrSerializerK where
  | sendError
  | sendXMLError
  | customE (id : Nat)
deriving DecidableEq

/-- Abstract handles for the error-handler functions (`ErrorHandler` or a
user-supplied function). -/
inductive ErrHandlerK where
  | errorHandler
  | customH (id : Nat)
deriving DecidableEq

/-- Embeds the configuration-relevant fields of `Server` (`server.go`).
Go's nil-able function fields are embedded as `Option` of abstract handles,
`none` standing for Go `nil`. -/
structure ServerCore where
  addr : String
  disallowUnknownFields : Bool
  serialize : Option SerializerK
  serializeError : Option ErrSerializerK
  errorHandler : Option ErrHandlerK
  globalOpenAPIResponses : List (Nat × String)
deriving DecidableEq

/-- Embeds the `Server` literal built at the start of `NewServer`, before
any option runs: Go zero values for all modelled fields. -/
def baseServer : ServerCore :=
  { addr := "", disallowUnknownFields := false, serialize := none,
    serializeError := none, errorHandler := none, globalOpenAPIResponses := [] }

/-- Embeds `WithDisallowUnknownFields`. -/
def WithDisallowUnknownFields (b : Bool) : ServerCore → ServerCore :=
  fun s => { s with disallowUnknownFields := b }

/-- Embeds `WithSerializer`. -/
def WithSerializer (k : SerializerK) : ServerCore → ServerCore :=
  fun s => { s with serialize := some k }

/-- Embeds `WithErrorSerializer`. -/
def WithErrorSerializer (k : ErrSerializerK) : ServerCore → ServerCore :=
  fun s => { s with serializeError := some k }

/-- Embeds `WithErrorHandler`. -/
def WithErrorHandler (k : ErrHandlerK) : ServerCore → ServerCore :=
  fun s => { s with errorHandler := some k }

/-- Embeds `WithAddr`. -/
def WithAddr (a : String) : ServerCore → ServerCore :=
  fun s => { s with addr := a }

/-- Embeds `WithGlobalResponseTypes` restricted to the status code and
description (the error-type payload is not modelled). -/
def WithGlobalResponseTypes (code : Nat) (description : String) : ServerCore → ServerCore :=
  fun s =>
    { s with globalOpenAPIResponses := s.globalOpenAPIResponses ++ [(code, description)] }

/-- Embeds the `defaultOptions` array of `NewServer` (`server.go`). -/
def defaultOptions : List (ServerCore → ServerCore) :=
  [WithDisallowUnknownFields true,
   WithSerializer .send,
   WithErrorSerializer .sendError,
   WithErrorHandler .errorHandler,
   WithGlobalResponseTypes 400 "Bad Request _(validation or deserialization error)_",
   WithGlobalResponseTypes 500 "Internal Server Error _(panics)_"]

/-- Embeds `NewServer` (`server.go`) restricted to the modelled fields:
apply the default options, then the user options, in that order; afterwards
default the address when it is still empty. -/
def NewServer (options : List (ServerCore → ServerCore)) : ServerCore :=
  let s := (defaultOptions ++ options).foldl (fun s o => o s) baseServer
  if s.addr == "" then WithAddr "localhost:9999" s else s

/-- C9: a server built with no user options has the strict unknown-field
policy enabled and the three function slots set to the non-nil defaults;
moreover the options fold applies all default options before the first user
option, and the three slots plus the strict policy are already set on the
intermediate state that the first user option sees. -/
theorem newServer_defaults_confirmed :
    (NewServer []).disallowUnknownFields = true ∧
    (NewServer []).serialize = some SerializerK.send ∧
    (NewServer []).serializeError = some ErrSerializerK.sendError ∧
    (NewServer []).errorHandler = some ErrHandlerK.errorHandler ∧
    (NewServer []).serialize ≠ none ∧
    (NewServer []).serializeError ≠ none ∧
    (NewServer []).errorHandler ≠ none ∧
    (∀ options : List (ServerCore → ServerCore),
      (defaultOptions ++ options).foldl (fun s o => o s) baseServer =
        options.foldl (fun s o => o s) (defaultOptions.foldl (fun s o => o s) baseServer)) ∧
    (defaultOptions.foldl (fun s o => o s) baseServer).disallowUnknownFields = true ∧
    (defaultOptions.foldl (fun s o => o s) baseServer).serialize = some SerializerK.send ∧
    (defaultOptions.foldl (fun s o => o s) baseServer).serializeError =
      some ErrSerializerK.sendError ∧
    (defaultOptions.foldl (fun s o => o s) baseServer).errorHandler =
      some ErrHandlerK.errorHandler := by
  refine ⟨rfl, rfl, rfl, rfl, by decide, by decide, by decide, ?_, rfl, rfl, rfl, rfl⟩
  intro options
  rw [List.foldl_append]

/-! ## Claim C8: `WithOpenAPIConfig` (options.go) -/

/-- Embeds `OpenAPIConfig` (options.go). -/
structure OpenAPIConfigG where
  disableSwagger : Bool
  disableLocalSave : Bool
  swaggerUrl : String
  jsonUrl : String
  jsonFilePath : String
deriving DecidableEq

/-- Embeds `defaultOpenAPIConfig` (options.go). -/
def defaultOpenAPIConfigG : OpenAPIConfigG :=
  { disableSwagger := false, disableLocalSave := false, swaggerUrl := "/swagger",
    jsonUrl := "/swagger/openapi.json", jsonFilePath := "doc/openapi.json" }

/-- Embeds the `WithOpenAPIConfig`-relevant server state: the stored config
and the error log (each `slog.Error` call is modelled by appending one
message; a panic or abort would be a missing result, which the total
function cannot produce). -/
structure SpecServer where
  openAPIConfig : OpenAPIConfigG
  logs : List String
deriving DecidableEq

/-- Embeds the log message of the failed local-path check. -/
def msgPathInvalid : String :=
  "Error writing json spec. Value of 'jsonSpecLocalPath' option is not valid"

/-- Embeds the log message of the failed JSON-URL check. -/
def msgJsonUrlInvalid : String :=
  "Error serving openapi json spec. Value of 's.OpenAPIConfig.JsonSpecUrl' option is not valid"

/-- Embeds the log message of the failed swagger-URL check. -/
def msgSwaggerInvalid : String :=
  "Error serving swagger ui. Value of 's.OpenAPIConfig.SwaggerUrl' option is not valid"

/-- Embeds the empty-field defaulting prefix of `WithOpenAPIConfig`: after
`s.OpenAPIConfig = openapiConfig`, each of `JsonUrl`, `SwaggerUrl` and
`JsonFilePath` that is empty is replaced by its default.  The three source
`if` statements touch disjoint fields, so they are embedded as one record
update. -/
def resolvedOpenAPIConfig (cfg : OpenAPIConfigG) : OpenAPIConfigG :=
  { cfg with
    jsonUrl := if cfg.jsonUrl = "" then defaultOpenAPIConfigG.jsonUrl else cfg.jsonUrl,
    swaggerUrl := if cfg.swaggerUrl = "" then defaultOpenAPIConfigG.swaggerUrl else cfg.swaggerUrl,
    jsonFilePath :=
      if cfg.jsonFilePath = "" then defaultOpenAPIConfigG.jsonFilePath else cfg.jsonFilePath }

/-- Embeds `WithOpenAPIConfig` (options.go).  The three validators
(`validateJsonSpecLocalPath`, `validateJsonSpecUrl`, `validateSwaggerUrl`)
are defined outside this repository snapshot, so they are taken as
parameters (the spec describes them as path-syntax checks).  Mirroring the
source: the config is stored with empty fields defaulted, then the local
file path, the JSON URL and the swagger URL are validated in that order;
the first failed check logs its error and returns, leaving the stored
config in place. -/
def WithOpenAPIConfig (validateJsonSpecLocalPath validateJsonSpecUrl validateSwaggerUrl :
    String → Bool) (openapiConfig : OpenAPIConfigG) (s : SpecServer) : SpecServer :=
  let c := resolvedOpenAPIConfig openapiConfig
  if validateJsonSpecLocalPath c.jsonFilePath = false then
    { openAPIConfig := c, logs := s.logs ++ [msgPathInvalid] }
  else if validateJsonSpecUrl c.jsonUrl = false then
    { openAPIConfig := c, logs := s.logs ++ [msgJsonUrlInvalid] }
  else if validateSwaggerUrl c.swaggerUrl = false then
    { openAPIConfig := c, logs := s.logs ++ [msgSwaggerInvalid] }
  else
    { openAPIConfig := c, logs := s.logs }

/-- C8: `WithOpenAPIConfig` replaces every empty URL/path field by its
default (`/swagger`, `/swagger/openapi.json`, `doc/openapi.json`); it
validates the local file path and the spec-JSON URL, and when a check fails
it appends exactly one error log and returns — the server value still
exists with the resolved config stored (nothing panics, construction
continues), and the flag fields are carried over unchanged. -/
theorem withOpenAPIConfig_confirmed (vPath vUrl vSwagger : String → Bool)
    (cfg : OpenAPIConfigG) (s : SpecServer) :
    (WithOpenAPIConfig vPath vUrl vSwagger cfg s).openAPIConfig.jsonUrl =
      (if cfg.jsonUrl = "" then "/swagger/openapi.json" else cfg.jsonUrl) ∧
    (WithOpenAPIConfig vPath vUrl vSwagger cfg s).openAPIConfig.swaggerUrl =
      (if cfg.swaggerUrl = "" then "/swagger" else cfg.swaggerUrl) ∧
    (WithOpenAPIConfig vPath vUrl vSwagger cfg s).openAPIConfig.jsonFilePath =
      (if cfg.jsonFilePath = "" then "doc/openapi.json" else cfg.jsonFilePath) ∧
    (WithOpenAPIConfig vPath vUrl vSwagger cfg s).openAPIConfig.disableSwagger =
      cfg.disableSwagger ∧
    (WithOpenAPIConfig vPath vUrl vSwagger cfg s).openAPIConfig.disableLocalSave =
      cfg.disableLocalSave ∧
    (vPath (resolvedOpenAPIConfig cfg).jsonFilePath = false →
      (WithOpenAPIConfig vPath vUrl vSwagger cfg s).logs = s.logs ++ [msgPathInvalid]) ∧
    (vPath (resolvedOpenAPIConfig cfg).jsonFilePath = true →
      vUrl (resolvedOpenAPIConfig cfg).jsonUrl = false →
      (WithOpenAPIConfig vPath vUrl vSwagger cfg s).logs = s.logs ++ [msgJsonUrlInvalid]) ∧
    (vPath (resolvedOpenAPIConfig cfg).jsonFilePath = true →
      vUrl (resolvedOpenAPIConfig cfg).jsonUrl = true →
      vSwagger (resolvedOpenAPIConfig cfg).swaggerUrl = false →
      (WithOpenAPIConfig vPath vUrl vSwagger cfg s).logs = s.logs ++ [msgSwaggerInvalid]) ∧
    (vPath (resolvedOpenAPIConfig cfg).jsonFilePath = true →
      vUrl (resolvedOpenAPIConfig cfg).jsonUrl = true →
      vSwagger (resolvedOpenAPIConfig cfg).swaggerUrl = true →
      (WithOpenAPIConfig vPath vUrl vSwagger cfg s).logs = s.logs) := by
  have hcfg : (WithOpenAPIConfig vPath vUrl vSwagger cfg s).openAPIConfig =
      resolvedOpenAPIConfig cfg := by
    unfold WithOpenAPIConfig
    dsimp only
    split_ifs <;> rfl
  refine ⟨?_, ?_, ?_, ?_, ?_, ?_, ?_, ?_, ?_⟩
  · rw [hcfg]; rfl
  · rw [hcfg]; rfl
  · rw [hcfg]; rfl
  · rw [hcfg]; rfl
  · rw [hcfg]; rfl
  · intro h1; simp [WithOpenAPIConfig, h1]
  · intro h1 h2; simp [WithOpenAPIConfig, h1, h2]
  · intro h1 h2 h3; simp [WithOpenAPIConfig, h1, h2, h3]
  · intro h1 h2 h3; simp [WithOpenAPIConfig, h1, h2, h3]

/-- Witness for C8: an all-empty config together with an always-failing path
validator — the defaults are filled in, one error is logged, and the option
still returns a server. -/
theorem withOpenAPIConfig_confirmed_witness :
    (WithOpenAPIConfig (fun _ => false) (fun _ => true) (fun _ => true)
        ⟨false, false, "", "", ""⟩ ⟨defaultOpenAPIConfigG, []⟩).openAPIConfig.jsonUrl =
      "/swagger/openapi.json" ∧
    (WithOpenAPIConfig (fun _ => false) (fun _ => true) (fun _ => true)
        ⟨false, false, "", "", ""⟩ ⟨defaultOpenAPIConfigG, []⟩).openAPIConfig.swaggerUrl =
      "/swagger" ∧
    (WithOpenAPIConfig (fun _ => false) (fun _ => true) (fun _ => true)
        ⟨false, false, "", "", ""⟩ ⟨defaultOpenAPIConfigG, []⟩).openAPIConfig.jsonFilePath =
      "doc/openapi.json" ∧
    (WithOpenAPIConfig (fun _ => false) (fun _ => true) (fun _ => true)
        ⟨false, false, "", "", ""⟩ ⟨defaultOpenAPIConfigG, []⟩).logs = [msgPathInvalid] := by
  have h := withOpenAPIConfig_confirmed (fun _ => false) (fun _ => true) (fun _ => true)
    ⟨false, false, "", "", ""⟩ ⟨defaultOpenAPIConfigG, []⟩
  exact ⟨h.1, h.2.1, h.2.2.1, h.2.2.2.2.2.1 rfl⟩

/-! ## Claim C5: middleware composition order

The `Use` function and the handler-wrapping step of route registration are
not part of this repository snapshot (only their tests are), so they are
modelled from the spec. -/

/-- Modelled from the spec: a handler abstracted to its effect on the
request's header trace — the observable checked by the middleware-order
tests (`X-Test-Order`). -/
abbrev HandlerM : Type := List String → List String

/-- Modelled from the spec: a middleware wraps a handler. -/
abbrev MiddlewareM : Type := HandlerM → HandlerM

/-- Mirrors the test middleware `orderMiddleware s` (option_test.go):
append `s` to the trace on the way in, then run the inner handler. -/
def orderMw (s : String) : MiddlewareM := fun h trace => h (trace ++ [s])

/-- Modelled from the spec: the server's global middleware list, in `Use`
registration order. -/
structure MwServer where
  middlewares : List MiddlewareM

/-- Modelled from the spec: `Use` appends the given middlewares to the
server's list. -/
def Use (s : MwServer) (mws : List MiddlewareM) : MwServer :=
  { s with middlewares := s.middlewares ++ mws }

/-- Modelled from the spec: wrap a handler in a middleware list, the first
element outermost. -/
def wrapAll (mws : List MiddlewareM) (h : HandlerM) : HandlerM :=
  mws.foldr (fun m acc => m acc) h

/-- Modelled from the spec: the adapter registered for a route — global
middlewares outermost (in `Use` order), per-route middlewares inside them
(in option order), the handler innermost. -/
def composedHandler (s : MwServer) (routeMws : List MiddlewareM) (h : HandlerM) : HandlerM :=
  wrapAll s.middlewares (wrapAll routeMws h)

/-- Wrapping in a list of `orderMw` middlewares appends their names to the
trace in list order before the inner handler runs. -/
theorem wrapAll_orderMw (h : HandlerM) :
    ∀ (names : List String) (t : List String),
      wrapAll (names.map orderMw) h t = h (t ++ names) := by
  intro names
  induction names with
  | nil => intro t; simp [wrapAll]
  | cons nm rest ih =>
      intro t
      show orderMw nm (wrapAll (rest.map orderMw) h) t = _
      rw [orderMw]
      rw [ih (t ++ [nm])]
      simp

/-- C5: with server middlewares registered by two consecutive `Use` calls
and per-route middlewares given at registration, a request's trace records
the first `Use` batch first, then the second batch, then the per-route
middlewares, and only then reaches the handler — earlier `Use`
registrations are outermost and per-route middleware is innermost. -/
theorem middleware_order_confirmed (h : HandlerM) (gs1 gs2 rs t0 : List String) :
    (Use (Use ⟨[]⟩ (gs1.map orderMw)) (gs2.map orderMw)).middlewares =
      (gs1 ++ gs2).map orderMw ∧
    composedHandler (Use (Use ⟨[]⟩ (gs1.map orderMw)) (gs2.map orderMw))
        (rs.map orderMw) h t0 = h (t0 ++ gs1 ++ gs2 ++ rs) := by
  have hmws : (Use (Use ⟨[]⟩ (gs1.map orderMw)) (gs2.map orderMw)).middlewares =
      (gs1 ++ gs2).map orderMw := by
    simp [Use]
  refine ⟨hmws, ?_⟩
  show wrapAll _ (wrapAll (rs.map orderMw) h) t0 = _
  rw [hmws, wrapAll_orderMw _ (gs1 ++ gs2) t0, wrapAll_orderMw h rs (t0 ++ (gs1 ++ gs2))]
  simp [List.append_assoc]

/-! ## Claims C6 and C7: route registry, hidden routes, duplicate routes

The registration function, the `Hide` option and the spec export are not
part of this repository snapshot (only their tests are), so they are
modelled from the spec. -/

/-- Modelled from the spec: one registered route — method, path, the body
its handler answers with status 200, and the hidden flag set by `Hide`. -/
structure RouteR where
  method : String
  path : String
  handlerBody : String
  hidden : Bool
deriving DecidableEq

/-- Modelled from the spec: the registry shared by the mux and the spec —
routes in registration order. -/
structure Registry where
  routes : List RouteR
deriving DecidableEq

/-- Modelled from the spec: route registration.  A (method, path) pair that
already exists is a fatal configuration error (`Except.error`, registration
aborts, the registry is not modified); otherwise the route is appended. -/
def registerRoute (s : Registry) (r : RouteR) : Except String Registry :=
  if s.routes.any (fun r' => r'.method == r.method && r'.path == r.path) then
    Except.error "route conflict"
  else
    Except.ok { routes := s.routes ++ [r] }

/-- Modelled from the spec: the path list of the exported OpenAPI document —
hidden routes are excluded. -/
def exportedPaths (s : Registry) : List String :=
  (s.routes.filter (fun r => !r.hidden)).map (fun r => r.path)

/-- Modelled from the spec: serving a direct request — the first registered
route with matching method and path answers 200 with its body; no match is
a 404. -/
def serve (s : Registry) (method path : String) : Nat × String :=
  match s.routes.find? (fun r => r.method == method && r.path == path) with
  | some r => (200, r.handlerBody)
  | none => (404, "")

/-- Find returns the unique element satisfying the predicate when it is in
the list and nothing else satisfies it. -/
theorem find_unique {α : Type} (p : α → Bool) :
    ∀ (l : List α) (a : α), a ∈ l → p a = true → (∀ x ∈ l, p x = true → x = a) →
      l.find? p = some a := by
  intro l
  induction l with
  | nil => intro a ha; cases ha
  | cons x rest ih =>
      intro a ha hpa huniq
      by_cases hx : p x = true
      · have hxa : x = a := huniq x (List.mem_cons_self x rest) hx
        subst hxa
        simp [List.find?_cons, hx]
      · have hbx : p x = false := by simpa using hx
        have hxa : a ∈ rest := by
          cases ha with
          | head => exact absurd hpa hx
          | tail _ hmem => exact hmem
        simp only [List.find?_cons, hbx]
        exact ih a hxa hpa (fun y hy => huniq y (List.mem_cons_of_mem _ hy))

/-- C6: a registered hidden route whose path is not shared by a visible
route is absent from the exported path list, yet a direct request to it is
served with status 200 and its handler's body (given that its method+path
pair is unique, which registration enforces); a registered non-hidden route
appears in the exported path list. -/
theorem hidden_route_confirmed (s : Registry) (r : RouteR) (hr : r ∈ s.routes) :
    (r.hidden = true → (∀ r' ∈ s.routes, r'.path = r.path → r'.hidden = true) →
      r.path ∉ exportedPaths s) ∧
    (r.hidden = false → r.path ∈ exportedPaths s) ∧
    ((∀ r' ∈ s.routes, r'.method = r.method → r'.path = r.path → r' = r) →
      serve s r.method r.path = (200, r.handlerBody)) := by
  refine ⟨?_, ?_, ?_⟩
  · intro _ hall hmem
    obtain ⟨r'', hr'', hpath⟩ := List.mem_map.mp hmem
    obtain ⟨hin, hvis⟩ := List.mem_filter.mp hr''
    have : r''.hidden = true := hall r'' hin hpath
    simp [this] at hvis
  · intro hvis
    exact List.mem_map.mpr ⟨r, List.mem_filter.mpr ⟨hr, by simp [hvis]⟩, rfl⟩
  · intro huniq
    have hfind : s.routes.find? (fun r' => r'.method == r.method && r'.path == r.path) =
        some r := by
      refine find_unique _ s.routes r hr (by simp) ?_
      intro x hx hpx
      simp only [Bool.and_eq_true, beq_iff_eq] at hpx
      exact huniq x hx hpx.1 hpx.2
    simp [serve, hfind]

/-- A hidden demo route. -/
def demoHidden : RouteR := ⟨"GET", "/hidden", "hello world", true⟩

/-- A visible demo route. -/
def demoVisible : RouteR := ⟨"GET", "/visible", "hello world", false⟩

/-- A demo registry with one hidden and one visible route. -/
def demoRegistry : Registry := ⟨[demoHidden, demoVisible]⟩

/-- Witness for C6: on the demo registry the hidden path is missing from the
export but served with 200, and the visible path is exported. -/
theorem hidden_route_confirmed_witness :
    "/hidden" ∉ exportedPaths demoRegistry ∧
    serve demoRegistry "GET" "/hidden" = (200, "hello world") ∧
    "/visible" ∈ exportedPaths demoRegistry := by
  have h1 := hidden_route_confirmed demoRegistry demoHidden (by simp [demoRegistry])
  have h2 := hidden_route_confirmed demoRegistry demoVisible
    (by simp [demoRegistry, demoHidden, demoVisible])
  exact ⟨h1.1 rfl (by decide), h1.2.2 (by decide), h2.2.1 rfl⟩

/-- C7: registering a route whose method and path both match an
already-registered route is a fatal error at registration time — the result
is `Except.error` and no registry is produced, so the first registration is
never replaced; without such a duplicate, registration succeeds and keeps
all previously registered routes in front of the new one. -/
theorem duplicate_route_fatal_confirmed (s : Registry) (r : RouteR) :
    ((∃ r' ∈ s.routes, r'.method = r.method ∧ r'.path = r.path) →
      registerRoute s r = Except.error "route conflict") ∧
    ((∀ r' ∈ s.routes, ¬(r'.method = r.method ∧ r'.path = r.path)) →
      registerRoute s r = Except.ok { routes := s.routes ++ [r] }) ∧
    (∀ s', registerRoute s r = Except.ok s' → s'.routes.take s.routes.length = s.routes) := by
  refine ⟨?_, ?_, ?_⟩
  · intro hdup
    obtain ⟨r', hr', hm, hp⟩ := hdup
    have hany : s.routes.any (fun x => x.method == r.method && x.path == r.path) = true :=
      List.any_eq_true.mpr ⟨r', hr', by simp [hm, hp]⟩
    simp [registerRoute, hany]
  · intro hno
    have hany : s.routes.any (fun x => x.method == r.method && x.path == r.path) = false := by
      rw [List.any_eq_false]
      intro x hx
      simp only [Bool.and_eq_true, beq_iff_eq, not_and]
      intro hm hp
      exact hno x hx ⟨hm, hp⟩
    simp [registerRoute, hany]
  · intro s' hok
    unfold registerRoute at hok
    by_cases hany : s.routes.any (fun x => x.method == r.method && x.path == r.path) = true
    · rw [if_pos hany] at hok
      cases hok
    · rw [if_neg hany] at hok
      have hs' : s' = { routes := s.routes ++ [r] } := (Except.ok.inj hok).symm
      rw [hs']
      show (s.routes ++ [r]).take s.routes.length = s.routes
      exact List.take_left s.routes [r]

/-- Witness for C7: re-registering the hidden demo route's method and path
fails with the fatal conflict error, while a fresh method+path pair is
appended after the existing routes. -/
theorem duplicate_route_fatal_confirmed_witness :
    registerRoute demoRegistry ⟨"GET", "/hidden", "other", false⟩ =
      Except.error "route conflict" ∧
    registerRoute demoRegistry ⟨"POST", "/new", "x", false⟩ =
      Except.ok ⟨demoRegistry.routes ++ [⟨"POST", "/new", "x", false⟩]⟩ := by
  have h1 := duplicate_route_fatal_confirmed demoRegistry ⟨"GET", "/hidden", "other", false⟩
  have h2 := duplicate_route_fatal_confirmed demoRegistry ⟨"POST", "/new", "x", false⟩
  exact ⟨h1.1 ⟨demoHidden, by simp [demoRegistry], rfl, rfl⟩, h2.2.1 (by decide)⟩

end OpSpec
